import Mathlib

/-!
Shallow embedding of the `dessin`/`drawing` vector-graphics repository:
the geometry primitives (affine/projective 2D transforms as homogeneous
3×3 matrices over ℚ), the `Circle` shape and its operation contract
(`src/dessin/src/contrib/circle.rs`), the `drawing` crate's shape list
(`src/src/drawing.rs`), and the PDF backend (`src/dessin-pdf/src/lib.rs`).
Machine floats (`f32`) are modelled by exact rationals: the claims under
study are structural and algebraic, not about rounding.
-/

namespace Dessin

/-- Embedding of `nalgebra::Transform2<f32>`: a homogeneous 3×3 matrix.
Row-major entries; an affine transform has bottom row (0, 0, 1). -/
structure Transform2 where
  m11 : ℚ
  m12 : ℚ
  m13 : ℚ
  m21 : ℚ
  m22 : ℚ
  m23 : ℚ
  m31 : ℚ
  m32 : ℚ
  m33 : ℚ
deriving DecidableEq, Repr

/-- Matrix product, as `nalgebra`'s `*` / `*=` on `Transform2`. -/
def Transform2.mul (a b : Transform2) : Transform2 where
  m11 := a.m11 * b.m11 + a.m12 * b.m21 + a.m13 * b.m31
  m12 := a.m11 * b.m12 + a.m12 * b.m22 + a.m13 * b.m32
  m13 := a.m11 * b.m13 + a.m12 * b.m23 + a.m13 * b.m33
  m21 := a.m21 * b.m11 + a.m22 * b.m21 + a.m23 * b.m31
  m22 := a.m21 * b.m12 + a.m22 * b.m22 + a.m23 * b.m32
  m23 := a.m21 * b.m13 + a.m22 * b.m23 + a.m23 * b.m33
  m31 := a.m31 * b.m11 + a.m32 * b.m21 + a.m33 * b.m31
  m32 := a.m31 * b.m12 + a.m32 * b.m22 + a.m33 * b.m32
  m33 := a.m31 * b.m13 + a.m32 * b.m23 + a.m33 * b.m33

/-- The identity transform (`Transform2::default()` in `nalgebra`). -/
def Transform2.ident : Transform2 :=
  ⟨1, 0, 0, 0, 1, 0, 0, 0, 1⟩

/-- Applying the transform to a 2D point (`transform_point`): homogeneous
application followed by the projective divide. For an affine transform the
denominator is 1. -/
def Transform2.apply (t : Transform2) (p : ℚ × ℚ) : ℚ × ℚ :=
  let w := t.m31 * p.1 + t.m32 * p.2 + t.m33
  ((t.m11 * p.1 + t.m12 * p.2 + t.m13) / w,
   (t.m21 * p.1 + t.m22 * p.2 + t.m23) / w)

/-- An affine transform: bottom homogeneous row is (0, 0, 1). -/
def Transform2.IsAffine (t : Transform2) : Prop :=
  t.m31 = 0 ∧ t.m32 = 0 ∧ t.m33 = 1

instance (t : Transform2) : Decidable t.IsAffine := by
  unfold Transform2.IsAffine
  infer_instance

/-- Embedding of `nalgebra::Scale2`. -/
structure Scale2 where
  sx : ℚ
  sy : ℚ
deriving DecidableEq, Repr

/-- `Scale2::new`. -/
def Scale2.new (sx sy : ℚ) : Scale2 :=
  ⟨sx, sy⟩

/-- The homogeneous matrix of a `Scale2`, as `nalgebra` converts it when a
scale is composed into a `Transform2`. -/
def Scale2.toTransform (s : Scale2) : Transform2 :=
  ⟨s.sx, 0, 0, 0, s.sy, 0, 0, 0, 1⟩

/-- Embedding of `Circle` from `src/dessin/src/contrib/circle.rs`. -/
structure Circle where
  local_transform : Transform2
deriving DecidableEq, Repr

/-- `Circle::default()`: `Transform2::default()` is the identity. -/
def Circle.default : Circle :=
  ⟨Transform2.ident⟩

/-- `ShapeOp::transform` for `Circle`: `self.local_transform *= transform_matrix`. -/
def Circle.transform (c : Circle) (transform_matrix : Transform2) : Circle :=
  { local_transform := c.local_transform.mul transform_matrix }

/-- Modelled from the spec: `ShapeOp::resize` (the `ShapeOp` trait lives in the
dessin core crate, which is not under `src/`); §4.1 says every operation of the
contract right-multiplies the additional transform into the local transform. -/
def Circle.resize (c : Circle) (s : Scale2) : Circle :=
  c.transform s.toTransform

/-- `Circle::radius`: `self.resize(Scale2::new(radius, radius))`. -/
def Circle.radius (c : Circle) (radius : ℚ) : Circle :=
  c.resize (Scale2.new radius radius)

/-- `Circle::with_radius`: the by-value version of `radius`. -/
def Circle.with_radius (c : Circle) (radius : ℚ) : Circle :=
  c.radius radius

/-- Embedding of `Ellipse { local_transform }` from the dessin shape model. -/
structure Ellipse where
  local_transform : Transform2
deriving DecidableEq, Repr

/-- The `Shape` tagged union; only the `Ellipse` variant is reached by the
code under `src/` (`From<Circle> for Shape`), the remaining variants of the
core enum are elided as unused here. -/
inductive Shape where
  | Ellipse (e : Dessin.Ellipse)
deriving DecidableEq, Repr

/-- `From<Circle> for Shape`: `Shape::Ellipse(Ellipse { local_transform })`. -/
def Shape.from_circle (c : Circle) : Shape :=
  .Ellipse ⟨c.local_transform⟩

/-- Embedding of `BezierPosition` (dessin core resolved-keypoint type, used by
the PDF backend's `export_curve`): an optional absolute start point, two
absolute control points and the absolute end point. The Rust field `end` is a
Lean keyword and is rendered `end_point`. -/
structure BezierPosition where
  start : Option (ℚ × ℚ)
  start_control : ℚ × ℚ
  end_control : ℚ × ℚ
  end_point : ℚ × ℚ
deriving DecidableEq, Repr

/-- Embedding of `KeypointPosition`: a resolved curve keypoint, either an
absolute straight point or a resolved Bezier segment. -/
inductive KeypointPosition where
  | Point (p : ℚ × ℚ)
  | Bezier (b : BezierPosition)
deriving DecidableEq, Repr

/-- Embedding of `CurvePosition { keypoints, closed }`. -/
structure CurvePosition where
  keypoints : List KeypointPosition
  closed : Bool
deriving DecidableEq, Repr

/-- The kappa constant of the standard four-segment cubic-Bezier approximation
of the unit circle, rounded to an exact rational. -/
def circle_kappa : ℚ :=
  55228475 / 100000000

/-- Modelled from the spec: the Ellipse→Curve conversion of §4.2 step 2 (the
dessin core's resolver is not under `src/`) — four Bezier keypoints
approximating the unit circle, every anchor/control point mapped through the
absolute transform; the first segment carries its explicit start, the
following segments reuse the previous end point (`start = None`); the result
is a closed curve (§4.4). -/
def ellipse_to_curve (t : Transform2) : CurvePosition where
  keypoints :=
    [ .Bezier ⟨some (t.apply (1, 0)), t.apply (1, circle_kappa),
        t.apply (circle_kappa, 1), t.apply (0, 1)⟩,
      .Bezier ⟨none, t.apply (-circle_kappa, 1),
        t.apply (-1, circle_kappa), t.apply (-1, 0)⟩,
      .Bezier ⟨none, t.apply (-1, -circle_kappa),
        t.apply (-circle_kappa, -1), t.apply (0, -1)⟩,
      .Bezier ⟨none, t.apply (circle_kappa, -1),
        t.apply (1, -circle_kappa), t.apply (1, 0)⟩ ]
  closed := true

/-- The anchor (on-curve) points of a resolved curve: each straight point, and
each Bezier segment's explicit start (when present) and end point. -/
def curve_anchor_points (c : CurvePosition) : List (ℚ × ℚ) :=
  c.keypoints.flatMap fun kp =>
    match kp with
    | .Point p => [p]
    | .Bezier b => b.start.toList ++ [b.end_point]

/-- Modelled from the spec: the engine's drawing call for an Ellipse (§4.3) —
the traversal engine is dessin core code not under `src/`. If the backend
declares `CAN_EXPORT_ELLIPSE` it gets a native ellipse call, otherwise the
ellipse is first converted to an equivalent curve and `export_curve` is
invoked. -/
inductive EngineCall where
  | native_ellipse (t : Transform2)
  | curve_call (c : CurvePosition)
deriving DecidableEq, Repr

/-- Modelled from the spec: capability negotiation for an ellipse with
absolute transform `t` against a backend flag (§4.3). -/
def export_ellipse_call (can_export_ellipse : Bool) (t : Transform2) : EngineCall :=
  if can_export_ellipse then .native_ellipse t else .curve_call (ellipse_to_curve t)

end Dessin

namespace DrawingRs

/-! Embedding of the `drawing` crate (`src/src/drawing.rs`). The crate's
`Rect` (from `position.rs`), `Style`, `Align` and image payloads are types of
this repository that are not under `src/`; `Rect` is modelled below from the
spec, the opaque pass-through payloads are type parameters. -/

/-- `algebra::Vec2`, a 2D vector of `f32`, modelled over ℚ. -/
abbrev Vec2 := ℚ × ℚ

/-- Componentwise vector sum (`shape.from + shape.to`). -/
def Vec2.add (a b : Vec2) : Vec2 :=
  (a.1 + b.1, a.2 + b.2)

/-- Componentwise vector difference (`shape.from - shape.to`). -/
def Vec2.sub (a b : Vec2) : Vec2 :=
  (a.1 - b.1, a.2 - b.2)

/-- Scalar division (`v / 2.`). -/
def Vec2.div (v : Vec2) (s : ℚ) : Vec2 :=
  (v.1 / s, v.2 / s)

/-- Componentwise absolute value (`Vec2::abs`). -/
def Vec2.abs (v : Vec2) : Vec2 :=
  (|v.1|, |v.2|)

/-- Modelled from the spec: `position::Rect` (its file is not under `src/`) as
an axis-aligned rectangle held as a center and a size; `Rect::new()` is the
zero rectangle, `.at(p)` places the center, `.with_size(s)` sets the size —
the reading the `AddShape<Line>` call site `Rect::new().at((from + to) / 2.)
.with_size((from - to).abs())` relies on. -/
structure Rect where
  center : Vec2
  size : Vec2
deriving DecidableEq, Repr

/-- `Rect::new()`. -/
def Rect.new : Rect :=
  ⟨(0, 0), (0, 0)⟩

/-- `Rect::at` (named `at_pos`: `at` is a Lean keyword). -/
def Rect.at_pos (r : Rect) (p : Vec2) : Rect :=
  { r with center := p }

/-- `Rect::with_size`. -/
def Rect.with_size (r : Rect) (s : Vec2) : Rect :=
  { r with size := s }

/-- `ShapeType`: the tagged union stored inside a `Shape` of the `drawing`
crate, one variant per `AddShape` impl present in `drawing.rs`. `Align`,
font-weight and image payloads are opaque to this file and stay parameters;
the Rust fields `from`/`to` are Lean keywords and are rendered
`from_v`/`to_v`. -/
inductive ShapeType (Align FontW ImgData : Type) where
  | Text (text : String) (align : Align) (font_size : ℚ) (font_weight : FontW)
  | Line (from_v to_v : Vec2)
  | Arc (inner_radius outer_radius start_angle end_angle : ℚ)
  | Image (data : ImgData)
deriving DecidableEq

/-- The `Shape` struct of `drawing.rs`: a position rectangle, an opaque style
and the shape-specific data. -/
structure Shape (Style Align FontW ImgData : Type) where
  pos : Rect
  style : Style
  shape_type : ShapeType Align FontW ImgData
deriving DecidableEq

/-- The `Drawing` struct: a canvas size and the ordered shape list. -/
structure Drawing (Style Align FontW ImgData : Type) where
  canvas_size : Vec2
  shapes : List (Shape Style Align FontW ImgData)
deriving DecidableEq

/-- `Drawing::empty()`. -/
def Drawing.empty {Style Align FontW ImgData : Type} :
    Drawing Style Align FontW ImgData :=
  ⟨(0, 0), []⟩

/-- `Drawing::with_canvas_size`. -/
def Drawing.with_canvas_size {Style Align FontW ImgData : Type}
    (d : Drawing Style Align FontW ImgData) (canvas_size : Vec2) :
    Drawing Style Align FontW ImgData :=
  { d with canvas_size := canvas_size }

/-- `Drawing::shapes()`: returns (a reference to) the shape list. -/
def Drawing.shapes_list {Style Align FontW ImgData : Type}
    (d : Drawing Style Align FontW ImgData) :
    List (Shape Style Align FontW ImgData) :=
  d.shapes

/-- The `Text` input shape, with the fields `AddShape<Text>` reads. -/
structure Text (Style Align FontW : Type) where
  pos : Rect
  style : Style
  text : String
  align : Align
  font_size : ℚ
  font_weight : FontW
deriving DecidableEq

/-- The `Line` input shape, with the fields `AddShape<Line>` reads. -/
structure Line (Style : Type) where
  style : Style
  from_v : Vec2
  to_v : Vec2
deriving DecidableEq

/-- The `Arc` input shape, with the fields `AddShape<Arc>` reads. -/
structure Arc (Style : Type) where
  pos : Rect
  style : Style
  inner_radius : ℚ
  outer_radius : ℚ
  start_angle : ℚ
  end_angle : ℚ
deriving DecidableEq

/-- The `Image` input shape, with the fields `AddShape<Image>` reads. -/
structure Image (Style ImgData : Type) where
  pos : Rect
  style : Style
  data : ImgData
deriving DecidableEq

section AddShapeImpls

variable {Style Align FontW ImgData : Type}

/-- `impl AddShape<Text> for Drawing`: push one `Shape` built from the text's
fields onto the end of `shapes`. -/
def Drawing.add_text (d : Drawing Style Align FontW ImgData)
    (shape : Text Style Align FontW) : Drawing Style Align FontW ImgData :=
  { d with
    shapes := d.shapes ++
      [⟨shape.pos, shape.style,
        .Text shape.text shape.align shape.font_size shape.font_weight⟩] }

/-- `impl AddShape<Line> for Drawing`: the position rectangle is built as
`Rect::new().at((from + to) / 2.).with_size((from - to).abs())`, the shape
data keeps `from` and `to`. -/
def Drawing.add_line (d : Drawing Style Align FontW ImgData)
    (shape : Line Style) : Drawing Style Align FontW ImgData :=
  let pos := (Rect.new.at_pos (Vec2.div (Vec2.add shape.from_v shape.to_v) 2)).with_size
    (Vec2.abs (Vec2.sub shape.from_v shape.to_v))
  { d with
    shapes := d.shapes ++
      [⟨pos, shape.style, .Line shape.from_v shape.to_v⟩] }

/-- `impl AddShape<Arc> for Drawing`. -/
def Drawing.add_arc (d : Drawing Style Align FontW ImgData)
    (shape : Arc Style) : Drawing Style Align FontW ImgData :=
  { d with
    shapes := d.shapes ++
      [⟨shape.pos, shape.style,
        .Arc shape.inner_radius shape.outer_radius shape.start_angle
          shape.end_angle⟩] }

/-- `impl AddShape<Image> for Drawing`. -/
def Drawing.add_image (d : Drawing Style Align FontW ImgData)
    (shape : Image Style ImgData) : Drawing Style Align FontW ImgData :=
  { d with
    shapes := d.shapes ++ [⟨shape.pos, shape.style, .Image shape.data⟩] }

/-- Modelled from the spec: the order in which exporter callbacks fire for the
children of a drawing is the child/insertion order (§4.2 step 4, §8 "Draw
order") — the traversal engine is not under `src/`. -/
def Drawing.export_callback_order (d : Drawing Style Align FontW ImgData) :
    List (Shape Style Align FontW ImgData) :=
  d.shapes

end AddShapeImpls

end DrawingRs

namespace DessinPdf

open Dessin

/-! Embedding of the PDF backend (`src/dessin-pdf/src/lib.rs`). The `printpdf`
layer is external: its draw state is modelled as the record of the values the
`set_*` calls last wrote, and `add_external_font` as appending the font bytes
to the document's embedded-font list. -/

/-- `PDFError` from `lib.rs`. The payloads of `PrintPDF` (a `printpdf::Error`),
`WriteError` (a `fmt::Error`) and `CurveHasNoStartingPoint` (the offending
core `Curve`) are opaque external/core values and are elided. -/
inductive PDFError where
  | PrintPDF
  | WriteError
  | CurveHasNoStartingPoint
  | UnknownBuiltinFont (name : String)
  | OrphelinLayer
deriving DecidableEq, Repr

/-- An RGB color triple, as `printpdf::Rgb` without the ICC profile and as the
result of dessin's `Color::as_rgb_f32`. -/
structure Rgb where
  r : ℚ
  g : ℚ
  b : ℚ
deriving DecidableEq, Repr

/-- Dessin's `Fill`: the single `Color` variant the backend matches on. -/
inductive Fill where
  | Color (c : Rgb)
deriving DecidableEq, Repr

/-- Dessin's `Stroke`, as matched by `start_style`. -/
inductive Stroke where
  | Full (color : Rgb) (width : ℚ)
  | Dashed (color : Rgb) (width : ℚ) («on» : ℚ) (off : ℚ)
deriving DecidableEq, Repr

/-- `StylePosition { fill, stroke }`. -/
structure StylePosition where
  fill : Option Fill
  stroke : Option Stroke
deriving DecidableEq, Repr

/-- `printpdf::LineDashPattern`. -/
structure LineDashPattern where
  offset : ℤ
  dash_1 : Option ℤ
  gap_1 : Option ℤ
  dash_2 : Option ℤ
  gap_2 : Option ℤ
  dash_3 : Option ℤ
  gap_3 : Option ℤ
deriving DecidableEq, Repr

/-- The draw state of a `printpdf` layer: the values last written by
`set_fill_color`, `set_outline_color`, `set_outline_thickness` and
`set_line_dash_pattern`. -/
structure LayerState where
  fill_color : Rgb
  outline_color : Rgb
  outline_thickness : ℚ
  dash_pattern : LineDashPattern
deriving DecidableEq, Repr

/-- `Mm(w).into_pt().0`: millimetres to points, `w * 72 / 25.4`. -/
def mm_into_pt (w : ℚ) : ℚ :=
  w * 72 / (254 / 10)

/-- A Rust `as i64` cast of an `f32`, on rationals: truncation toward zero. -/
def rat_as_i64 (q : ℚ) : ℤ :=
  q.num.tdiv (q.den : ℤ)

/-- `PDFExporter::start_style`: write the fill color when a fill is given;
when a stroke is given, write the dash pattern first for a dashed stroke,
then the outline color and the outline thickness (converted to points). -/
def start_style (sp : StylePosition) (st : LayerState) :
    Except PDFError LayerState :=
  let st1 :=
    match sp.fill with
    | some (.Color c) => { st with fill_color := c }
    | none => st
  let st2 :=
    match sp.stroke with
    | some (.Full color width) =>
        { st1 with
          outline_color := color
          outline_thickness := mm_into_pt width }
    | some (.Dashed color width on_len off_len) =>
        { st1 with
          dash_pattern :=
            ⟨0, some (rat_as_i64 on_len), some (rat_as_i64 off_len), none, none,
              none, none⟩
          outline_color := color
          outline_thickness := mm_into_pt width }
    | none => st1
  .ok st2

/-- `PDFExporter::end_style`: set the outline color to black, the outline
thickness to 0, clear the dash pattern and set the fill color to black. -/
def end_style (_st : LayerState) : Except PDFError LayerState :=
  .ok
    { outline_color := ⟨0, 0, 0⟩
      outline_thickness := 0
      dash_pattern := ⟨0, none, none, none, none, none, none⟩
      fill_color := ⟨0, 0, 0⟩ }

/-- `PDFExporter::CAN_EXPORT_ELLIPSE` (`lib.rs` line 75). -/
def PDFExporter.CAN_EXPORT_ELLIPSE : Bool :=
  false

/-- The `next_control` flag computed inside `export_curve` for keypoint `i`:
whether `keypoints.get(i + 1)` is a Bezier whose `start` is omitted. -/
def next_control (kps : List KeypointPosition) (i : ℕ) : Bool :=
  match kps.get? (i + 1) with
  | some (.Bezier b) => b.start.isNone
  | _ => false

/-- The PDF points one keypoint contributes in `export_curve`, given that
keypoint's `next_control` flag: a straight point carries the flag; a Bezier
emits its explicit start (when present) with flag `true`, its start control
with `true`, its end control with `false` and its end with the flag. -/
def keypoint_points (nc : Bool) : KeypointPosition → List ((ℚ × ℚ) × Bool)
  | .Point p => [(p, nc)]
  | .Bezier b =>
      (match b.start with
       | some s => [(s, true)]
       | none => []) ++
      [(b.start_control, true), (b.end_control, false), (b.end_point, nc)]

/-- The full point list `export_curve` builds: the keypoints enumerated, each
contributing its `keypoint_points` chunk. -/
def export_curve_points (kps : List KeypointPosition) :
    List ((ℚ × ℚ) × Bool) :=
  kps.enum.flatMap fun ik => keypoint_points (next_control kps ik.1) ik.2

/-- The `next_control` flag of the head keypoint of a curve, phrased on the
tail that follows it: whether that tail starts with a Bezier whose `start` is
omitted. A derived view of `next_control`, used to decompose
`export_curve_points` keypoint by keypoint. -/
def head_start_omitted (tail : List KeypointPosition) : Bool :=
  match tail with
  | .Bezier b :: _ => b.start.isNone
  | _ => false

/-- Structural-recursion view of the point list `export_curve` builds; proved
equal to `export_curve_points` below. -/
def export_points_aux : List KeypointPosition → List ((ℚ × ℚ) × Bool)
  | [] => []
  | kp :: rest => keypoint_points (head_start_omitted rest) kp ++ export_points_aux rest

/-- `printpdf::Line` as built by `export_curve`. -/
structure PdfLine where
  points : List ((ℚ × ℚ) × Bool)
  is_closed : Bool
deriving DecidableEq, Repr

/-- `PDFExporter::export_curve`: build the point list, wrap it in a
`printpdf::Line` closed iff the curve is, add it to the layer, return `Ok`.
The line added to the layer is returned here. -/
def export_curve (curve : CurvePosition) : Except PDFError PdfLine :=
  .ok { points := export_curve_points curve.keypoints, is_closed := curve.closed }

/-- Modelled from the spec: resolution of a curve whose first keypoint is a
Bezier with omitted `start` fails with a geometry error and never defaults the
start to the origin (§4.4, §8 "Missing-start error scenario"); the resolver is
dessin core code not under `src/`. The error variant is the backend's
`CurveHasNoStartingPoint` (`lib.rs` line 23). -/
def resolve_curve_start_check (c : CurvePosition) :
    Except PDFError CurvePosition :=
  match c.keypoints.head? with
  | some (.Bezier b) =>
      if b.start.isNone then .error .CurveHasNoStartingPoint else .ok c
  | _ => .ok c

/-- `dessin::font::FontWeight`, with the four weights the commented text
exporter in `lib.rs` matches on. -/
inductive FontWeight where
  | Regular
  | Bold
  | Italic
  | BoldItalic
deriving DecidableEq, Repr

/-- `dessin::font::FontRef`: a reference naming a font; a core type not under
`src/`, modelled as its name. `FontRef::default()` is the default font's
name. -/
def FontRef : Type :=
  String

instance : DecidableEq FontRef :=
  inferInstanceAs (DecidableEq String)

instance : Repr FontRef :=
  inferInstanceAs (Repr String)

/-- `FontRef::default()`. -/
def FontRef.default : FontRef :=
  ""

/-- A font file's raw bytes. -/
abbrev Bytes := List ℕ

/-- `dessin::font::Font`: OTF or TTF bytes, the two variants `export_text`
matches on. -/
inductive Font where
  | OTF (bytes : Bytes)
  | TTF (bytes : Bytes)
deriving DecidableEq, Repr

/-- The bytes inside a `Font`, as the `Font::OTF(b) | Font::TTF(b)` match
arms extract them. -/
def Font.bytes : Font → Bytes
  | .OTF b => b
  | .TTF b => b

/-- `printpdf::IndirectFontRef`, modelled as the index of the embedded font
inside the document's font list. -/
abbrev IndirectFontRef := ℕ

/-- The font side of a `printpdf::PdfDocumentReference`: the list of embedded
font byte blobs, appended to by `add_external_font`. -/
structure PdfDocFonts where
  embedded : List Bytes
deriving DecidableEq, Repr

/-- `PdfDocumentReference::add_external_font`: embed the bytes into the
document and return a reference to the new font. -/
def add_external_font (doc : PdfDocFonts) (b : Bytes) :
    PdfDocFonts × IndirectFontRef :=
  (⟨doc.embedded ++ [b]⟩, doc.embedded.length)

/-- `PDFFontHolder = HashMap<(FontRef, FontWeight), IndirectFontRef>`,
modelled as an association list with `HashMap` insert-replaces semantics. -/
abbrev PDFFontHolder := List ((FontRef × FontWeight) × IndirectFontRef)

/-- `HashMap::contains_key` on the holder. -/
def holder_contains_key (h : PDFFontHolder) (k : FontRef × FontWeight) : Bool :=
  h.any fun e => decide (e.1 = k)

/-- `HashMap::insert` on the holder: replace the binding when the key is
present, append it otherwise. -/
def holder_insert (h : PDFFontHolder) (k : FontRef × FontWeight)
    (v : IndirectFontRef) : PDFFontHolder :=
  if holder_contains_key h k then
    h.map fun e => if e.1 = k then (k, v) else e
  else
    h ++ [(k, v)]

/-- The mutable state `export_text` threads through its font handling: the
backend document's embedded fonts and the exporter's `used_font` cache. -/
structure TextExportState where
  doc : PdfDocFonts
  used_font : PDFFontHolder
deriving DecidableEq, Repr

/-- The font handling of `PDFExporter::export_text` (`lib.rs` lines 257-292),
with the global font store (`dessin::font::get`, core code not under `src/`)
passed in explicitly as `store`. Faithful to the source: when the
`(font, weight)` pair is NOT in `used_font` the branch body is empty; when it
IS present, the pair is (re-)inserted with a freshly embedded font and the
font bytes are embedded once more with the result dropped; afterwards the
font is always embedded yet again to obtain the `IndirectFontRef` used for
drawing, which is returned. -/
def export_text_fonts (store : FontRef → FontWeight → Font)
    (st : TextExportState) (font_opt : Option FontRef)
    (font_weight : FontWeight) : TextExportState × IndirectFontRef :=
  let font := font_opt.getD FontRef.default
  let st1 :=
    if ¬ (holder_contains_key st.used_font (font, font_weight) = true) then
      st
    else
      let embedded1 := add_external_font st.doc (store font font_weight).bytes
      let used1 := holder_insert st.used_font (font, font_weight) embedded1.2
      let embedded2 := add_external_font embedded1.1 (store font font_weight).bytes
      { doc := embedded2.1, used_font := used1 }
  let embedded3 := add_external_font st1.doc (store font font_weight).bytes
  ({ st1 with doc := embedded3.1 }, embedded3.2)

/-- `PDFOptions { size, used_font }`. -/
structure PDFOptions where
  size : Option (ℚ × ℚ)
  used_font : PDFFontHolder
deriving DecidableEq, Repr

/-- A `printpdf::PdfDocumentReference` as the standalone export entry point
manipulates it: the page size it was created with, and — modelled from the
spec, as `write_into_exporter` is dessin core code not under `src/` — the
record of the in-document export call made into its layer, holding the parent
translation `(width / 2, height / 2)` the export was invoked with (`None`
until the export runs). -/
structure PdfDocumentReference where
  width : ℚ
  height : ℚ
  export_ran_with_translation : Option (ℚ × ℚ)
deriving DecidableEq, Repr

/-- `ToPDF::write_to_pdf_with_options` (`lib.rs` lines 352-367): take the
size from `options.size`, falling back to the shape's local bounding box
(`local_bounding_box` is core code not under `src/`; its width/height are
passed in as `local_bb`), build the exporter, and write the shape into it
with the parent translation `(width / 2, height / 2)`. -/
def write_to_pdf_with_options (local_bb : ℚ × ℚ) (options : PDFOptions)
    (doc : PdfDocumentReference) : Except PDFError PdfDocumentReference :=
  let wh := options.size.getD local_bb
  .ok { doc with export_ran_with_translation := some (wh.1 / 2, wh.2 / 2) }

/-- `ToPDF::to_pdf_with_options` (`lib.rs` lines 369-385): resolve the page
size from `options.size`, falling back to the shape's local bounding box
(`get_or_insert_with` also stores the fallback back into the options), create
a fresh document and layer of that size, write the shape into it, and return
the finished document. -/
def to_pdf_with_options (local_bb : ℚ × ℚ) (options : PDFOptions) :
    Except PDFError PdfDocumentReference :=
  let size := options.size.getD local_bb
  let doc : PdfDocumentReference :=
    { width := size.1, height := size.2, export_ran_with_translation := none }
  write_to_pdf_with_options local_bb { options with size := some size } doc

end DessinPdf

namespace Dessin

theorem Transform2.ident_mul (t : Transform2) : Transform2.ident.mul t = t := by
  cases t
  simp [Transform2.mul, Transform2.ident]

theorem Transform2.mul_apply_of_isAffine (a b : Transform2) (p : ℚ × ℚ)
    (ha : a.IsAffine) (hb : b.IsAffine) :
    (a.mul b).apply p = a.apply (b.apply p) := by
  obtain ⟨ha1, ha2, ha3⟩ := ha
  obtain ⟨hb1, hb2, hb3⟩ := hb
  simp only [Transform2.mul, Transform2.apply, ha1, ha2, ha3, hb1, hb2, hb3]
  norm_num
  constructor <;> ring

end Dessin

namespace DessinPdf

theorem enumFrom_flatMap_keypoints (F : List Dessin.KeypointPosition) :
    ∀ (rest : List Dessin.KeypointPosition) (n : ℕ),
      (∀ i, F.get? (n + i) = rest.get? i) →
      (List.enumFrom n rest).flatMap
          (fun ik => keypoint_points (next_control F ik.1) ik.2)
        = export_points_aux rest := by
  intro rest
  induction rest with
  | nil => intro n _; rfl
  | cons kp rest ih =>
      intro n h
      rw [List.enumFrom_cons, List.flatMap_cons]
      have hflag : next_control F n = head_start_omitted rest := by
        have h1 := h 1
        unfold next_control head_start_omitted
        cases rest with
        | nil =>
            have h1' : F.get? (n + 1) = none := h1
            rw [h1']
        | cons k2 r2 =>
            have h1' : F.get? (n + 1) = some k2 := h1
            rw [h1']
            cases k2 <;> rfl
      have htail : ∀ i, F.get? (n + 1 + i) = rest.get? i := by
        intro i
        have h2 := h (i + 1)
        have he : n + (i + 1) = n + 1 + i := by omega
        rw [he] at h2
        exact h2
      rw [hflag, ih (n + 1) htail]
      rfl

theorem export_curve_points_eq_aux (kps : List Dessin.KeypointPosition) :
    export_curve_points kps = export_points_aux kps := by
  unfold export_curve_points List.enum
  exact enumFrom_flatMap_keypoints kps kps 0 (fun i => by simp)

theorem export_curve_points_cons (kp : Dessin.KeypointPosition)
    (rest : List Dessin.KeypointPosition) :
    export_curve_points (kp :: rest)
      = keypoint_points (head_start_omitted rest) kp ++ export_curve_points rest := by
  rw [export_curve_points_eq_aux, export_curve_points_eq_aux]
  rfl

end DessinPdf

theorem append_one_spec {α : Type} (l : List α) (x : α) :
    (l ++ [x]).length = l.length + 1 ∧ (l ++ [x]).take l.length = l ∧
    (l ++ [x]).getLast? = some x :=
  ⟨by simp, List.take_left l [x], List.getLast?_concat l⟩

/-- C7: `ShapeOp::transform` for `Circle` right-multiplies the additional
transform into the existing local transform (`local_transform * M`), it cannot
fail and mutates only the transform field (the result is the circle whose sole
field is the product); and for affine transforms, applying the composed
transform means applying `M` in the shape's current local frame first, then
the old local transform. -/
theorem C7_circle_transform_right_multiplies (c : Dessin.Circle)
    (m : Dessin.Transform2) :
    c.transform m = ⟨c.local_transform.mul m⟩ ∧
    (c.transform m).local_transform = c.local_transform.mul m ∧
    (c.local_transform.IsAffine → m.IsAffine → ∀ p : ℚ × ℚ,
      (c.transform m).local_transform.apply p
        = c.local_transform.apply (m.apply p)) :=
  ⟨rfl, rfl, fun ha hm p => Dessin.Transform2.mul_apply_of_isAffine _ _ p ha hm⟩

/-- Witness for C7 at a concrete translation and a concrete rotation-like
affine matrix, including a concrete point for the composition conjunct. -/
theorem C7_circle_transform_right_multiplies_witness :
    (Dessin.Circle.mk ⟨1, 0, 3, 0, 1, 4, 0, 0, 1⟩).transform
        ⟨0, -1, 0, 1, 0, 0, 0, 0, 1⟩
      = ⟨Dessin.Transform2.mul ⟨1, 0, 3, 0, 1, 4, 0, 0, 1⟩
          ⟨0, -1, 0, 1, 0, 0, 0, 0, 1⟩⟩ ∧
    ((Dessin.Circle.mk ⟨1, 0, 3, 0, 1, 4, 0, 0, 1⟩).transform
        ⟨0, -1, 0, 1, 0, 0, 0, 0, 1⟩).local_transform.apply (2, 5)
      = Dessin.Transform2.apply ⟨1, 0, 3, 0, 1, 4, 0, 0, 1⟩
          (Dessin.Transform2.apply ⟨0, -1, 0, 1, 0, 0, 0, 0, 1⟩ (2, 5)) := by
  have h := C7_circle_transform_right_multiplies
    ⟨⟨1, 0, 3, 0, 1, 4, 0, 0, 1⟩⟩ ⟨0, -1, 0, 1, 0, 0, 0, 0, 1⟩
  exact ⟨h.1, h.2.2 (by decide) (by decide) (2, 5)⟩

/-- C9: converting a `Circle` into `Shape` yields the `Ellipse` variant
carrying exactly the circle's local transform; `with_radius r` right-multiplies
the uniform scale `(r, r)` into the transform; hence the default circle with
radius `r`, as a `Shape`, is the unit-circle ellipse whose transform is the
uniform scale by `r`, which maps every point `p` to `r • p`. -/
theorem C9_circle_into_shape_scaled (c : Dessin.Circle) (r : ℚ) :
    Dessin.Shape.from_circle c = .Ellipse ⟨c.local_transform⟩ ∧
    (c.with_radius r).local_transform
      = c.local_transform.mul (Dessin.Scale2.new r r).toTransform ∧
    Dessin.Shape.from_circle (Dessin.Circle.default.with_radius r)
      = .Ellipse ⟨(Dessin.Scale2.new r r).toTransform⟩ ∧
    (∀ p : ℚ × ℚ,
      ((Dessin.Scale2.new r r).toTransform).apply p = (r * p.1, r * p.2)) := by
  refine ⟨rfl, rfl, ?_, ?_⟩
  · show Dessin.Shape.Ellipse ⟨Dessin.Transform2.ident.mul _⟩ = _
    rw [Dessin.Transform2.ident_mul]
  · intro p
    simp [Dessin.Transform2.apply, Dessin.Scale2.toTransform, Dessin.Scale2.new]

/-- C4: `end_style` succeeds on every layer state, its result does not depend
on the state `start_style` produced, and the state it writes has black fill,
black outline, zero outline thickness and a cleared dash pattern. -/
theorem C4_end_style_resets (sp : DessinPdf.StylePosition)
    (st st' : DessinPdf.LayerState) :
    (DessinPdf.end_style st).isOk = true ∧
    (DessinPdf.start_style sp st = .ok st' →
      DessinPdf.end_style st' = DessinPdf.end_style st) ∧
    (∀ s2, DessinPdf.end_style st = .ok s2 →
      s2.fill_color = ⟨0, 0, 0⟩ ∧ s2.outline_color = ⟨0, 0, 0⟩ ∧
      s2.outline_thickness = 0 ∧
      s2.dash_pattern = ⟨0, none, none, none, none, none, none⟩) := by
  refine ⟨rfl, fun _ => rfl, fun s2 h => ?_⟩
  injection h with h
  subst h
  exact ⟨rfl, rfl, rfl, rfl⟩

/-- Witness for C4 at a concrete style (red fill, no stroke) and a concrete
layer state. -/
theorem C4_end_style_resets_witness :
    (DessinPdf.end_style
        ⟨⟨1, 0, 0⟩, ⟨0, 1, 0⟩, 5, ⟨0, some 2, some 3, none, none, none, none⟩⟩).isOk
      = true ∧
    DessinPdf.end_style ⟨⟨1, 0, 0⟩, ⟨0, 1, 0⟩, 5,
        ⟨0, some 2, some 3, none, none, none, none⟩⟩
      = DessinPdf.end_style ⟨⟨1, 0, 0⟩, ⟨0, 1, 0⟩, 5,
          ⟨0, some 2, some 3, none, none, none, none⟩⟩ ∧
    ((⟨⟨0, 0, 0⟩, ⟨0, 0, 0⟩, 0, ⟨0, none, none, none, none, none, none⟩⟩ :
        DessinPdf.LayerState).fill_color = ⟨0, 0, 0⟩ ∧
      (⟨⟨0, 0, 0⟩, ⟨0, 0, 0⟩, 0, ⟨0, none, none, none, none, none, none⟩⟩ :
        DessinPdf.LayerState).outline_color = ⟨0, 0, 0⟩ ∧
      (⟨⟨0, 0, 0⟩, ⟨0, 0, 0⟩, 0, ⟨0, none, none, none, none, none, none⟩⟩ :
        DessinPdf.LayerState).outline_thickness = 0 ∧
      (⟨⟨0, 0, 0⟩, ⟨0, 0, 0⟩, 0, ⟨0, none, none, none, none, none, none⟩⟩ :
        DessinPdf.LayerState).dash_pattern
        = ⟨0, none, none, none, none, none, none⟩) := by
  have h := C4_end_style_resets
    ⟨some (.Color ⟨1, 0, 0⟩), none⟩
    ⟨⟨1, 0, 0⟩, ⟨0, 1, 0⟩, 5, ⟨0, some 2, some 3, none, none, none, none⟩⟩
    ⟨⟨1, 0, 0⟩, ⟨0, 1, 0⟩, 5, ⟨0, some 2, some 3, none, none, none, none⟩⟩
  exact ⟨h.1, h.2.1 rfl, h.2.2 _ rfl⟩

/-- C8: the standalone export entry point `to_pdf_with_options` creates a
fresh document whose page size is exactly the explicit `(width, height)` from
`options.size` when supplied, and otherwise the width and height of the
shape's local bounding box; in both cases it invokes the in-document export on
the fresh layer (with the centering parent translation) and returns the
finished document. -/
theorem C8_standalone_document_size (bb : ℚ × ℚ) (w h : ℚ)
    (cache : DessinPdf.PDFFontHolder) :
    (∃ doc, DessinPdf.to_pdf_with_options bb ⟨some (w, h), cache⟩ = .ok doc ∧
      doc.width = w ∧ doc.height = h ∧
      doc.export_ran_with_translation = some (w / 2, h / 2)) ∧
    (∃ doc, DessinPdf.to_pdf_with_options bb ⟨none, cache⟩ = .ok doc ∧
      doc.width = bb.1 ∧ doc.height = bb.2 ∧
      doc.export_ran_with_translation = some (bb.1 / 2, bb.2 / 2)) :=
  ⟨⟨_, rfl, rfl, rfl, rfl⟩, ⟨_, rfl, rfl, rfl, rfl⟩⟩

/-- C6: every `AddShape::add` on a `Drawing` (Text, Line, Arc, Image) appends
exactly one `Shape` at the end of the shape sequence and leaves all previously
added shapes unchanged (the old list is the prefix of the new one); `shapes()`
returns that list, which is the order in which exporter callbacks fire. -/
theorem C6_add_appends_in_order {Style Align FontW ImgData : Type}
    (d : DrawingRs.Drawing Style Align FontW ImgData)
    (t : DrawingRs.Text Style Align FontW) (l : DrawingRs.Line Style)
    (a : DrawingRs.Arc Style) (im : DrawingRs.Image Style ImgData) :
    ((d.add_text t).shapes.length = d.shapes.length + 1 ∧
      (d.add_text t).shapes.take d.shapes.length = d.shapes ∧
      (d.add_text t).shapes.getLast?
        = some ⟨t.pos, t.style, .Text t.text t.align t.font_size t.font_weight⟩) ∧
    ((d.add_line l).shapes.length = d.shapes.length + 1 ∧
      (d.add_line l).shapes.take d.shapes.length = d.shapes ∧
      ∃ s, (d.add_line l).shapes.getLast? = some s ∧
        s.shape_type = .Line l.from_v l.to_v) ∧
    ((d.add_arc a).shapes.length = d.shapes.length + 1 ∧
      (d.add_arc a).shapes.take d.shapes.length = d.shapes ∧
      (d.add_arc a).shapes.getLast?
        = some ⟨a.pos, a.style,
            .Arc a.inner_radius a.outer_radius a.start_angle a.end_angle⟩) ∧
    ((d.add_image im).shapes.length = d.shapes.length + 1 ∧
      (d.add_image im).shapes.take d.shapes.length = d.shapes ∧
      (d.add_image im).shapes.getLast? = some ⟨im.pos, im.style, .Image im.data⟩) ∧
    (d.add_text t).shapes_list = (d.add_text t).shapes ∧
    (d.add_text t).export_callback_order = (d.add_text t).shapes_list := by
  have h2 := append_one_spec d.shapes
    (⟨(DrawingRs.Rect.new.at_pos
        (DrawingRs.Vec2.div (DrawingRs.Vec2.add l.from_v l.to_v) 2)).with_size
      (DrawingRs.Vec2.abs (DrawingRs.Vec2.sub l.from_v l.to_v)), l.style,
      .Line l.from_v l.to_v⟩ : DrawingRs.Shape Style Align FontW ImgData)
  exact ⟨append_one_spec _ _,
    ⟨h2.1, h2.2.1, ⟨_, h2.2.2, rfl⟩⟩,
    append_one_spec _ _, append_one_spec _ _, rfl, rfl⟩

/-- C10: the `Shape` that `AddShape<Line>::add` pushes carries a position
rectangle centered at the midpoint `(from + to) / 2` with size the
componentwise absolute difference `|from - to|`, while the stored shape data
keeps the original `from` and `to` endpoints (and the style) unchanged. -/
theorem C10_line_rect_midpoint {Style Align FontW ImgData : Type}
    (d : DrawingRs.Drawing Style Align FontW ImgData) (l : DrawingRs.Line Style) :
    ∃ s, (d.add_line l).shapes.getLast? = some s ∧
      s.pos.center = DrawingRs.Vec2.div (DrawingRs.Vec2.add l.from_v l.to_v) 2 ∧
      s.pos.size = DrawingRs.Vec2.abs (DrawingRs.Vec2.sub l.from_v l.to_v) ∧
      s.style = l.style ∧
      s.shape_type = .Line l.from_v l.to_v :=
  ⟨_, List.getLast?_concat _, rfl, rfl, rfl, rfl⟩

/-- C3: the PDF backend declares `CAN_EXPORT_ELLIPSE = false`, so the engine's
drawing call for an ellipse with absolute transform `t` is `export_curve` on
the ellipse-to-curve conversion, never a native ellipse call; that curve is
closed, and its anchor points are exactly the transform applied to the four
unit-circle points (1,0), (0,1), (-1,0), (0,-1) — points that lie exactly on
the unit circle — closing back onto the start point. -/
theorem C3_ellipse_capability_fallback (t : Dessin.Transform2) :
    DessinPdf.PDFExporter.CAN_EXPORT_ELLIPSE = false ∧
    Dessin.export_ellipse_call DessinPdf.PDFExporter.CAN_EXPORT_ELLIPSE t
      = .curve_call (Dessin.ellipse_to_curve t) ∧
    (Dessin.ellipse_to_curve t).closed = true ∧
    Dessin.curve_anchor_points (Dessin.ellipse_to_curve t)
      = [t.apply (1, 0), t.apply (0, 1), t.apply (-1, 0), t.apply (0, -1),
          t.apply (1, 0)] ∧
    ((1 : ℚ) ^ 2 + (0 : ℚ) ^ 2 = 1 ∧ (0 : ℚ) ^ 2 + (1 : ℚ) ^ 2 = 1 ∧
      (-1 : ℚ) ^ 2 + (0 : ℚ) ^ 2 = 1 ∧ (0 : ℚ) ^ 2 + (-1 : ℚ) ^ 2 = 1) := by
  refine ⟨rfl, rfl, rfl, ?_, by norm_num⟩
  simp [Dessin.curve_anchor_points, Dessin.ellipse_to_curve]

/-- C2: for a curve whose first keypoint is a Bezier with `start = None`,
resolution fails with the `CurveHasNoStartingPoint` geometry error, and the
PDF path emitted by `export_curve` never fabricates a start point for it: the
first keypoint contributes exactly its own start-control, end-control and end
points — no point (in particular not the origin) is synthesized in place of
the missing start. -/
theorem C2_missing_start_error (c : Dessin.CurvePosition)
    (b : Dessin.BezierPosition) (rest : List Dessin.KeypointPosition)
    (hk : c.keypoints = .Bezier b :: rest) (hs : b.start = none) :
    DessinPdf.resolve_curve_start_check c = .error .CurveHasNoStartingPoint ∧
    DessinPdf.export_curve c = .ok
      { points := [(b.start_control, true), (b.end_control, false),
            (b.end_point, DessinPdf.head_start_omitted rest)]
            ++ DessinPdf.export_curve_points rest,
        is_closed := c.closed } := by
  constructor
  · unfold DessinPdf.resolve_curve_start_check
    rw [hk]
    simp [hs]
  · unfold DessinPdf.export_curve
    rw [hk, DessinPdf.export_curve_points_cons]
    simp [DessinPdf.keypoint_points, hs]

/-- Witness for C2 at a concrete one-keypoint curve whose Bezier omits its
start. -/
theorem C2_missing_start_error_witness :
    DessinPdf.resolve_curve_start_check
        ⟨[.Bezier ⟨none, (1, 1), (2, 2), (3, 3)⟩], true⟩
      = .error .CurveHasNoStartingPoint ∧
    DessinPdf.export_curve ⟨[.Bezier ⟨none, (1, 1), (2, 2), (3, 3)⟩], true⟩
      = .ok
        { points := [((1, 1), true), ((2, 2), false),
              ((3, 3), DessinPdf.head_start_omitted [])]
              ++ DessinPdf.export_curve_points [],
          is_closed := true } :=
  C2_missing_start_error ⟨[.Bezier ⟨none, (1, 1), (2, 2), (3, 3)⟩], true⟩
    ⟨none, (1, 1), (2, 2), (3, 3)⟩ [] rfl rfl

/-- C5: in `export_curve`, the flag on a keypoint's last emitted point equals
its `next_control`, which is true iff the immediately following keypoint is a
Bezier with omitted start (and false for the final keypoint); a Bezier's
explicit start and start-control points are emitted with flag `true`, its
end-control point with flag `false` and its end point with the `next_control`
flag. -/
theorem C5_next_control_hinting (kps : List Dessin.KeypointPosition) (i : ℕ)
    (kp : Dessin.KeypointPosition) (h : kps.get? i = some kp) :
    ((DessinPdf.keypoint_points (DessinPdf.next_control kps i) kp).map
        Prod.snd).getLast? = some (DessinPdf.next_control kps i) ∧
    (DessinPdf.next_control kps i = true ↔
      ∃ b, kps.get? (i + 1) = some (.Bezier b) ∧ b.start = none) ∧
    (i + 1 = kps.length → DessinPdf.next_control kps i = false) ∧
    (∀ b, kp = .Bezier b →
      DessinPdf.keypoint_points (DessinPdf.next_control kps i) (.Bezier b)
        = (match b.start with
           | some s => [(s, true)]
           | none => []) ++
          [(b.start_control, true), (b.end_control, false),
            (b.end_point, DessinPdf.next_control kps i)]) := by
  refine ⟨?_, ?_, ?_, ?_⟩
  · cases kp with
    | Point p => rfl
    | Bezier b => cases b with
      | mk s sc ec ep => cases s <;> rfl
  · unfold DessinPdf.next_control
    cases hg : kps.get? (i + 1) with
    | none => simp
    | some kp' => cases kp' with
      | Point p => simp
      | Bezier b => simp [Option.isNone_iff_eq_none]
  · intro hlen
    have hn : kps.get? (i + 1) = none := by
      rw [List.get?_eq_none]
      omega
    unfold DessinPdf.next_control
    rw [hn]
  · rintro b rfl
    rfl

/-- Witness for C5 at a concrete two-keypoint curve: a straight point followed
by a Bezier with omitted start. -/
theorem C5_next_control_hinting_witness :
    ((DessinPdf.keypoint_points
        (DessinPdf.next_control
          [.Point (0, 0), .Bezier ⟨none, (1, 1), (2, 2), (3, 3)⟩] 0)
        (.Point (0, 0))).map Prod.snd).getLast?
      = some (DessinPdf.next_control
          [.Point (0, 0), .Bezier ⟨none, (1, 1), (2, 2), (3, 3)⟩] 0) ∧
    (DessinPdf.next_control
        [.Point (0, 0), .Bezier ⟨none, (1, 1), (2, 2), (3, 3)⟩] 0 = true ↔
      ∃ b, [Dessin.KeypointPosition.Point (0, 0),
          .Bezier ⟨none, (1, 1), (2, 2), (3, 3)⟩].get? (0 + 1)
          = some (.Bezier b) ∧ b.start = none) ∧
    (0 + 1 = [Dessin.KeypointPosition.Point (0, 0),
        .Bezier ⟨none, (1, 1), (2, 2), (3, 3)⟩].length →
      DessinPdf.next_control
        [.Point (0, 0), .Bezier ⟨none, (1, 1), (2, 2), (3, 3)⟩] 0 = false) ∧
    (∀ b, Dessin.KeypointPosition.Point (0, 0) = .Bezier b →
      DessinPdf.keypoint_points
          (DessinPdf.next_control
            [.Point (0, 0), .Bezier ⟨none, (1, 1), (2, 2), (3, 3)⟩] 0)
          (.Bezier b)
        = (match b.start with
           | some s => [(s, true)]
           | none => []) ++
          [(b.start_control, true), (b.end_control, false),
            (b.end_point,
              DessinPdf.next_control
                [.Point (0, 0), .Bezier ⟨none, (1, 1), (2, 2), (3, 3)⟩] 0)]) :=
  C5_next_control_hinting
    [.Point (0, 0), .Bezier ⟨none, (1, 1), (2, 2), (3, 3)⟩] 0 (.Point (0, 0)) rfl

/-- C1 (code evaluated at the failing input): starting from an empty
`used_font` cache, `export_text`'s font handling does NOT insert the
`(font, weight)` pair into the cache on first use, and a second call with the
same pair embeds the font bytes into the backend document a second time;
moreover when the pair IS already cached, the call re-embeds the font three
more times. This contradicts the claimed "insert and embed exactly once per
pair, on first use" contract — the membership check's branches are inverted
(the cache-miss branch is empty), as `spec.md` §9 itself notes. -/
theorem C1_font_cache_inverted_at_input :
    ((DessinPdf.export_text_fonts (fun _ _ => .TTF [7]) ⟨⟨[]⟩, []⟩
        none .Regular).1.used_font = []) ∧
    ((DessinPdf.export_text_fonts (fun _ _ => .TTF [7])
        ((DessinPdf.export_text_fonts (fun _ _ => .TTF [7]) ⟨⟨[]⟩, []⟩
          none .Regular).1)
        none .Regular).1.doc.embedded = [[7], [7]]) ∧
    ((DessinPdf.export_text_fonts (fun _ _ => .TTF [7])
        ⟨⟨[[9]]⟩, [((DessinPdf.FontRef.default, .Regular), 0)]⟩
        none .Regular).1.doc.embedded = [[9], [7], [7], [7]]) := by
  decide
